import Mathlib

/-!
Shallow embedding of the `vcsclient` package of froggit-go (GitHub and
GitLab adapters) and proofs about its observable behavior.

Network calls are modelled by passing the platform as an explicit oracle
function; each operation returns its Go result (collapsed into `Except`)
paired with the trace of platform requests it performed.
-/

namespace Froggit

/-- Error taxonomy of the layer: local validation errors, webhook-id parse
errors, endpoint-URL parse errors, and errors surfaced by the platform. -/
inductive VcsError where
  | validation : List String → VcsError
  | parse : String → VcsError
  | urlParse : String → VcsError
  | platform : String → VcsError
deriving DecidableEq, Repr

/-- Modelled from the spec: `CommitStatus` is a closed enum
{Pass, Fail, Error, InProgress}; its declaration (a Go `int`-backed enum in
`vcsclient/common.go`) is not under src/, so it is modelled as the usual
Go iota encoding. -/
abbrev CommitStatus := Int

def Pass : CommitStatus := 0

def Fail : CommitStatus := 1

def Error : CommitStatus := 2

def InProgress : CommitStatus := 3

/-- Modelled from the spec: `WebhookEvent` is a closed enum
{PrCreated, PrEdited, Push}; its declaration (in the `vcsutils` package,
not under src/) is modelled as the usual Go iota encoding. -/
abbrev WebhookEvent := Int

def PrCreated : WebhookEvent := 0

def PrEdited : WebhookEvent := 1

def Push : WebhookEvent := 2

/-- Modelled from the spec: `Permission` is a closed enum
{ReadOnly, ReadWrite}; declaration not under src/. -/
abbrev Permission := Int

def ReadOnly : Permission := 0

def ReadWrite : Permission := 1

/-- `getGitHubCommitState` (src/vcsclient/github.go:314-326): switch over
the `CommitStatus` enum, empty string for anything unrecognized. -/
def getGitHubCommitState (commitState : CommitStatus) : String :=
  if commitState = Pass then "success"
  else if commitState = Fail then "failure"
  else if commitState = Error then "error"
  else if commitState = InProgress then "pending"
  else ""

/-- `getGitLabCommitState` (src/vcsclient/gitlab.go:187-199): switch over
the `CommitStatus` enum, empty string for anything unrecognized. -/
def getGitLabCommitState (commitState : CommitStatus) : String :=
  if commitState = Pass then "success"
  else if commitState = Fail then "failed"
  else if commitState = Error then "failed"
  else if commitState = InProgress then "running"
  else ""

/-- `getGitHubWebhookEvents` (src/vcsclient/github.go:301-312): maps the
generic webhook events to GitHub event names, skipping unrecognized ones. -/
def getGitHubWebhookEvents : List WebhookEvent → List String
  | [] => []
  | event :: rest =>
    if event = PrCreated ∨ event = PrEdited then
      "pull_request" :: getGitHubWebhookEvents rest
    else if event = Push then
      "push" :: getGitHubWebhookEvents rest
    else
      getGitHubWebhookEvents rest

/-- `gitlab.ProjectHook`, restricted to the fields the adapter sets
(src/vcsclient/gitlab.go:173-185). -/
structure ProjectHook where
  URL : String
  MergeRequestsEvents : Bool
  PushEvents : Bool
  PushEventsBranchFilter : String
deriving DecidableEq, Repr

/-- `createProjectHook` (src/vcsclient/gitlab.go:173-185): builds the
GitLab project hook from the generic events; unrecognized events set no
flag. -/
def createProjectHook (branch : String) (payloadUrl : String)
    (webhookEvents : List WebhookEvent) : ProjectHook :=
  webhookEvents.foldl
    (fun options webhookEvent =>
      if webhookEvent = PrCreated ∨ webhookEvent = PrEdited then
        { options with MergeRequestsEvents := true }
      else if webhookEvent = Push then
        { options with PushEvents := true, PushEventsBranchFilter := branch }
      else
        options)
    { URL := payloadUrl, MergeRequestsEvents := false, PushEvents := false,
      PushEventsBranchFilter := "" }

/-- Helper for the base-10 digit scan of `strconv.ParseInt`: folds the
digits left to right, failing on any non-digit character. -/
def digitsToNat (cs : List Char) : Option Nat :=
  cs.foldl
    (fun acc c =>
      match acc with
      | none => none
      | some n => if c.isDigit then some (n * 10 + (c.toNat - 48)) else none)
    (some 0)

/-- Model of Go `strconv.ParseInt(s, 10, 64)` as used by the adapters:
an optional leading sign, a non-empty run of decimal digits, and an
int64 range check; any failure (including range overflow, which Go
reports as an error) yields `none`. -/
def goParseInt64 (s : String) : Option Int :=
  let cs := s.toList
  let signDigits : Bool × List Char :=
    match cs with
    | '+' :: rest => (false, rest)
    | '-' :: rest => (true, rest)
    | _ => (false, cs)
  if signDigits.2.isEmpty then none
  else
    match digitsToNat signDigits.2 with
    | none => none
    | some n =>
      let v : Int := if signDigits.1 then -(n : Int) else (n : Int)
      if v < -(2 : Int) ^ 63 ∨ (2 : Int) ^ 63 - 1 < v then none else some v

/-- Model of Go `strconv.Atoi` (src/vcsclient/gitlab.go:109,119): ParseInt
with base 10 into the platform `int`, 64-bit here. -/
def goAtoi (s : String) : Option Int :=
  goParseInt64 s

/-- The `github.Hook` object the GitHub adapter sends: events list plus the
config map, whose three keys are fixed (src/vcsclient/github.go:289-298). -/
structure GitHubHook where
  Events : List String
  Config : List (String × String)
deriving DecidableEq, Repr

/-- `createGitHubHook` (src/vcsclient/github.go:289-298). -/
def createGitHubHook (token payloadUrl : String)
    (webhookEvents : List WebhookEvent) : GitHubHook :=
  { Events := getGitHubWebhookEvents webhookEvents,
    Config := [("url", payloadUrl), ("content_type", "json"), ("secret", token)] }

/-- `getProjectId` (src/vcsclient/gitlab.go:169-171). -/
def getProjectId (owner project : String) : String :=
  owner ++ "/" ++ project

/-- The fields of `gitlab.AddProjectHookOptions` / `EditProjectHookOptions`
that the adapter fills (src/vcsclient/gitlab.go:84-90,102-108). -/
structure ProjectHookOptions where
  Token : String
  URL : String
  MergeRequestsEvents : Bool
  PushEvents : Bool
  PushEventsBranchFilter : String
deriving DecidableEq, Repr

/-- Builds the options record sent to GitLab from a `ProjectHook`,
as both CreateWebhook and UpdateWebhook do. -/
def projectHookOptions (token : String) (projectHook : ProjectHook) :
    ProjectHookOptions :=
  { Token := token, URL := projectHook.URL,
    MergeRequestsEvents := projectHook.MergeRequestsEvents,
    PushEvents := projectHook.PushEvents,
    PushEventsBranchFilter := projectHook.PushEventsBranchFilter }

/-- `GitHubClient.CreateWebhook` (src/vcsclient/github.go:118-131), with the
inner client already built, the random token passed explicitly and the
platform modelled as an oracle from the hook sent to the created hook's ID.
The third string parameter (the branch) is ignored by the source. Returns
the Go result and the trace of hooks sent. -/
def CreateWebhookGH (server : String → String → GitHubHook → Except VcsError Int)
    (token owner repository _branch payloadUrl : String)
    (webhookEvents : List WebhookEvent) :
    Except VcsError (String × String) × List (String × String × GitHubHook) :=
  let hook := createGitHubHook token payloadUrl webhookEvents
  match server owner repository hook with
  | .error e => (.error e, [(owner, repository, hook)])
  | .ok id => (.ok (toString id, token), [(owner, repository, hook)])

/-- `GitHubClient.UpdateWebhook` (src/vcsclient/github.go:133-146): parses
the webhook ID with ParseInt, aborting before the platform call on failure;
otherwise edits the hook. The branch parameter is ignored by the source.
The trace records (id, hook) pairs sent to the platform. -/
def UpdateWebhookGH
    (server : String → String → Int → GitHubHook → Except VcsError Unit)
    (owner repository _branch payloadUrl token webhookId : String)
    (webhookEvents : List WebhookEvent) :
    Except VcsError Unit × List (String × String × Int × GitHubHook) :=
  match goParseInt64 webhookId with
  | none => (.error (.parse webhookId), [])
  | some webhookIdInt64 =>
    let hook := createGitHubHook token payloadUrl webhookEvents
    match server owner repository webhookIdInt64 hook with
    | .error e => (.error e, [(owner, repository, webhookIdInt64, hook)])
    | .ok _ => (.ok (), [(owner, repository, webhookIdInt64, hook)])

/-- `GitHubClient.DeleteWebhook` (src/vcsclient/github.go:148-159): parses
the webhook ID, aborting before the platform call on failure. -/
def DeleteWebhookGH (server : String → String → Int → Except VcsError Unit)
    (owner repository webhookId : String) :
    Except VcsError Unit × List (String × String × Int) :=
  match goParseInt64 webhookId with
  | none => (.error (.parse webhookId), [])
  | some webhookIdInt64 =>
    match server owner repository webhookIdInt64 with
    | .error e => (.error e, [(owner, repository, webhookIdInt64)])
    | .ok _ => (.ok (), [(owner, repository, webhookIdInt64)])

/-- `GitLabClient.CreateWebhook` (src/vcsclient/gitlab.go:80-97): builds the
project hook (push-branch filter included), sends it for the composite
project id, returns (decimal hook id, token). -/
def CreateWebhookGL
    (server : String → ProjectHookOptions → Except VcsError Int)
    (token owner repository branch payloadUrl : String)
    (webhookEvents : List WebhookEvent) :
    Except VcsError (String × String) × List (String × ProjectHookOptions) :=
  let options := projectHookOptions token
    (createProjectHook branch payloadUrl webhookEvents)
  match server (getProjectId owner repository) options with
  | .error e => (.error e, [(getProjectId owner repository, options)])
  | .ok id => (.ok (toString id, token), [(getProjectId owner repository, options)])

/-- `GitLabClient.UpdateWebhook` (src/vcsclient/gitlab.go:99-116): builds
the options, then parses the webhook ID with Atoi, aborting before the
platform call on failure. -/
def UpdateWebhookGL
    (server : String → Int → ProjectHookOptions → Except VcsError Unit)
    (owner repository branch payloadUrl token webhookId : String)
    (webhookEvents : List WebhookEvent) :
    Except VcsError Unit × List (String × Int × ProjectHookOptions) :=
  let options := projectHookOptions token
    (createProjectHook branch payloadUrl webhookEvents)
  match goAtoi webhookId with
  | none => (.error (.parse webhookId), [])
  | some intWebhook =>
    match server (getProjectId owner repository) intWebhook options with
    | .error e => (.error e, [(getProjectId owner repository, intWebhook, options)])
    | .ok _ => (.ok (), [(getProjectId owner repository, intWebhook, options)])

/-- `GitLabClient.DeleteWebhook` (src/vcsclient/gitlab.go:118-126): parses
the webhook ID with Atoi, aborting before the platform call on failure. -/
def DeleteWebhookGL (server : String → Int → Except VcsError Unit)
    (owner repository webhookId : String) :
    Except VcsError Unit × List (String × Int) :=
  match goAtoi webhookId with
  | none => (.error (.parse webhookId), [])
  | some intWebhook =>
    match server (getProjectId owner repository) intWebhook with
    | .error e => (.error e, [(getProjectId owner repository, intWebhook)])
    | .ok _ => (.ok (), [(getProjectId owner repository, intWebhook)])

/-- Modelled from the spec: a required string argument is blank when it is
empty or whitespace-only (Go `strings.TrimSpace(v) == ""`). -/
def isBlank (s : String) : Bool :=
  s.toList.all (fun c => c == ' ' || c == '\t' || c == '\n' || c == '\r')

/-- Modelled from the spec: `validateParametersNotBlank` (package file not
under src/) collects the names of all blank required parameters and, when
any exist, returns a validation error naming them; otherwise no error. -/
def validateParametersNotBlank (params : List (String × String)) :
    Option VcsError :=
  let errorMessages :=
    (params.filter (fun p => isBlank p.2)).map
      (fun p => "required parameter " ++ p.1 ++ " is missing")
  if errorMessages.isEmpty then none else some (.validation errorMessages)

/-- Recognizer for the validation branch of the error taxonomy. -/
def isValidationErr {α : Type} : Except VcsError α → Bool
  | .error (.validation _) => true
  | _ => false

/-- The `github.Key` deploy-key payload, restricted to the fields the
adapter sets (src/vcsclient/github.go:67-71). -/
structure DeployKey where
  Key : String
  Title : String
  ReadOnly : Bool
deriving DecidableEq, Repr

/-- `GitHubClient.AddSshKeyToRepository` (src/vcsclient/github.go:48-77):
validates the four required strings, then registers the deploy key with
`ReadOnly` true unless the permission is ReadWrite. The trace records the
`CreateKey` calls made. -/
def AddSshKeyToRepository
    (server : String → String → DeployKey → Except VcsError Unit)
    (owner repository keyName publicKey : String) (permission : Permission) :
    Except VcsError Unit × List (String × String × DeployKey) :=
  match validateParametersNotBlank
      [("owner", owner), ("repository", repository),
        ("key name", keyName), ("public key", publicKey)] with
  | some e => (.error e, [])
  | none =>
    let readOnly := if permission = ReadWrite then false else true
    let key : DeployKey := { Key := publicKey, Title := keyName, ReadOnly := readOnly }
    match server owner repository key with
    | .error e => (.error e, [(owner, repository, key)])
    | .ok _ => (.ok (), [(owner, repository, key)])

/-- Author/committer detail of a GitHub commit; `Date` is already the UTC
unix timestamp the adapter extracts. -/
structure CommitDetailsPerson where
  Name : String
  Date : Int
deriving DecidableEq, Repr

/-- The `commit.GetCommit()` details used by the adapter. -/
structure CommitDetails where
  Author : CommitDetailsPerson
  Committer : CommitDetailsPerson
  Message : String
deriving DecidableEq, Repr

/-- `github.RepositoryCommit`, restricted to the fields the adapter reads;
`Parents` holds the parent SHAs. -/
structure RepositoryCommit where
  SHA : String
  URL : String
  Commit : CommitDetails
  Parents : List String
deriving DecidableEq, Repr

/-- The provider-neutral `CommitInfo` domain value. -/
structure CommitInfo where
  Hash : String
  AuthorName : String
  CommitterName : String
  Url : String
  Timestamp : Int
  Message : String
  ParentHashes : List String
deriving DecidableEq, Repr

/-- `mapGitHubCommitToCommitInfo` (src/vcsclient/github.go:328-343). -/
def mapGitHubCommitToCommitInfo (commit : RepositoryCommit) : CommitInfo :=
  { Hash := commit.SHA,
    AuthorName := commit.Commit.Author.Name,
    CommitterName := commit.Commit.Committer.Name,
    Url := commit.URL,
    Timestamp := commit.Commit.Committer.Date,
    Message := commit.Commit.Message,
    ParentHashes := commit.Parents }

/-- The zero value of Go `CommitInfo`. -/
def emptyCommitInfo : CommitInfo :=
  { Hash := "", AuthorName := "", CommitterName := "", Url := "",
    Timestamp := 0, Message := "", ParentHashes := [] }

/-- `GitHubClient.GetLatestCommit` (src/vcsclient/github.go:216-246):
validates owner/repository/branch, then lists commits of the branch with
page 1, per-page 1 (the oracle returns that response) and returns the
first commit mapped, or the zero CommitInfo when the list is empty. The
second component counts platform requests. -/
def GetLatestCommit
    (server : String → String → String → Except VcsError (List RepositoryCommit))
    (owner repository branch : String) :
    Except VcsError CommitInfo × Nat :=
  match validateParametersNotBlank
      [("owner", owner), ("repository", repository), ("branch", branch)] with
  | some e => (.error e, 0)
  | none =>
    match server owner repository branch with
    | .error e => (.error e, 1)
    | .ok commits =>
      match commits with
      | latestCommit :: _ => (.ok (mapGitHubCommitToCommitInfo latestCommit), 1)
      | [] => (.ok emptyCommitInfo, 1)

/-- A platform branch record; the adapters read only the name. -/
structure Branch where
  Name : String
deriving DecidableEq, Repr

/-- `GitHubClient.ListBranches` (src/vcsclient/github.go:101-116): no
argument validation; one platform call whose branches are mapped to their
names. The second component counts platform requests. -/
def ListBranchesGH (server : String → String → Except VcsError (List Branch))
    (owner repository : String) : Except VcsError (List String) × Nat :=
  match server owner repository with
  | .error e => (.error e, 1)
  | .ok branches => (.ok (branches.map Branch.Name), 1)

/-- `GitLabClient.ListBranches` (src/vcsclient/gitlab.go:66-78): no
argument validation; one platform call keyed by the composite project id.
The trace records the project ids requested. -/
def ListBranchesGL (server : String → Except VcsError (List Branch))
    (owner repository : String) : Except VcsError (List String) × List String :=
  match server (getProjectId owner repository) with
  | .error e => (.error e, [getProjectId owner repository])
  | .ok branches => (.ok (branches.map Branch.Name), [getProjectId owner repository])

/-- Model of the Go map update `results[owner] = append(results[owner],
name)` as an insertion-ordered association list: per-owner name order is
exactly the Go slice order. -/
def insertRepo (results : List (String × List String))
    (ownerLogin name : String) : List (String × List String) :=
  match results with
  | [] => [(ownerLogin, [name])]
  | (k, v) :: rest =>
    if k = ownerLogin then (k, v ++ [name]) :: rest
    else (k, v) :: insertRepo rest ownerLogin name

/-- One page of the GitHub repository listing folded into the results map
(the inner `for _, repo := range repos` of src/vcsclient/github.go:91-93);
entries are (owner login, repository name) pairs. -/
def applyPageGH (results : List (String × List String))
    (repos : List (String × String)) : List (String × List String) :=
  repos.foldl (fun r repo => insertRepo r repo.1 repo.2) results

/-- The pagination loop of `GitHubClient.ListRepositories`
(src/vcsclient/github.go:85-97): page counter from 0, one request per
iteration, stop when `nextPage + 1 >= response.LastPage`. The oracle
returns each page's repositories together with the response's LastPage.
Fuel bounds the unrolling; `none` means the fuel ran out before the loop
stopped. The Nat accumulates the number of page requests made. -/
def listReposLoopGH
    (server : Nat → Except VcsError (List (String × String) × Nat)) :
    Nat → Nat → List (String × List String) → Nat →
    Option (Except VcsError (List (String × List String)) × Nat)
  | 0, _, _, _ => none
  | fuel + 1, nextPage, results, count =>
    match server nextPage with
    | .error e => some (.error e, count + 1)
    | .ok (repos, lastPage) =>
      let results2 := applyPageGH results repos
      if lastPage ≤ nextPage + 1 then some (.ok results2, count + 1)
      else listReposLoopGH server fuel (nextPage + 1) results2 (count + 1)

/-- `GitHubClient.ListRepositories` (src/vcsclient/github.go:79-99). -/
def ListRepositoriesGH
    (server : Nat → Except VcsError (List (String × String) × Nat))
    (fuel : Nat) :
    Option (Except VcsError (List (String × List String)) × Nat) :=
  listReposLoopGH server fuel 0 [] 0

/-- One page of a GitLab group's project listing folded into the results
map (the inner `for _, project := range projects` of
src/vcsclient/gitlab.go:54-56). -/
def applyPageGL (group : String) (results : List (String × List String))
    (projects : List String) : List (String × List String) :=
  projects.foldl (fun r p => insertRepo r group p) results

/-- The per-group pagination loop of `GitLabClient.ListRepositories`
(src/vcsclient/gitlab.go:46-60): page counter from 1, stop when
`pageId >= response.TotalPages`. The oracle returns each page's project
paths together with the response's TotalPages. -/
def listGroupProjectsLoopGL
    (server : String → Nat → Except VcsError (List String × Nat))
    (group : String) :
    Nat → Nat → List (String × List String) → Nat →
    Option (Except VcsError (List (String × List String)) × Nat)
  | 0, _, _, _ => none
  | fuel + 1, pageId, results, count =>
    match server group pageId with
    | .error e => some (.error e, count + 1)
    | .ok (projects, totalPages) =>
      let results2 := applyPageGL group results projects
      if totalPages ≤ pageId then some (.ok results2, count + 1)
      else listGroupProjectsLoopGL server group fuel (pageId + 1) results2 (count + 1)

/-- The outer `for _, group := range groups` of
`GitLabClient.ListRepositories` (src/vcsclient/gitlab.go:45-62), threading
the results map and the page-request count through each group's loop. -/
def listReposGroupsGL
    (server : String → Nat → Except VcsError (List String × Nat))
    (fuel : Nat) :
    List String → List (String × List String) → Nat →
    Option (Except VcsError (List (String × List String)) × Nat)
  | [], results, count => some (.ok results, count)
  | group :: rest, results, count =>
    match listGroupProjectsLoopGL server group fuel 1 results count with
    | none => none
    | some (.error e, c) => some (.error e, c)
    | some (.ok results2, c) => listReposGroupsGL server fuel rest results2 c

/-- `GitLabClient.ListRepositories` (src/vcsclient/gitlab.go:39-64): one
ListGroups call (modelled as an already-delivered `Except`), then the
per-group pagination loops. The request count covers the page requests
made by the loops. -/
def ListRepositoriesGL (groupsServer : Except VcsError (List String))
    (server : String → Nat → Except VcsError (List String × Nat))
    (fuel : Nat) :
    Option (Except VcsError (List (String × List String)) × Nat) :=
  match groupsServer with
  | .error e => some (.error e, 0)
  | .ok groups => listReposGroupsGL server fuel groups [] 0

/-- Concatenation of the pages `f start, f (start+1), ...` for a given
page count, in request order. -/
def pagesConcat {α : Type} (f : Nat → List α) (start : Nat) : Nat → List α
  | 0 => []
  | k + 1 => f start ++ pagesConcat f (start + 1) k

/-- Specification-side aggregate: the results map obtained by folding, for
each group in order, the concatenation of that group's pages 1..max 1 L
(the pages a constant TotalPages indicator L makes the loop request). -/
def aggGroupsGL (f : String → Nat → List String) (L : Nat) :
    List String → List (String × List String) → List (String × List String)
  | [], acc => acc
  | g :: rest, acc =>
    aggGroupsGL f L rest (applyPageGL g acc (pagesConcat (f g) 1 (max 1 L)))

/-- `VcsInfo` configuration (endpoint, token, username). -/
structure VcsInfo where
  ApiEndpoint : String
  Token : String
  Username : String
deriving DecidableEq, Repr

/-- The GitHub adapter value: just the stored configuration
(src/vcsclient/github.go:15-17). -/
structure GitHubClient where
  vcsInfo : VcsInfo
deriving DecidableEq, Repr

/-- `NewGitHubClient` (src/vcsclient/github.go:19-21): stores the
configuration and never fails — no endpoint parsing happens here. -/
def NewGitHubClient (vcsInfo : VcsInfo) : Except VcsError GitHubClient :=
  .ok { vcsInfo := vcsInfo }

/-- Go `strings.TrimSuffix`: removes one trailing occurrence. -/
def trimSuffix (s suffixStr : String) : String :=
  if s.endsWith suffixStr then s.dropRight suffixStr.length else s

/-- `buildGithubClient` (src/vcsclient/github.go:32-46), called at the
start of every GitHub operation: when an endpoint is configured, parses
`TrimSuffix(endpoint, "/") + "/"` with the external URL parser (modelled
as an oracle) and fails on a parse error. -/
def buildGithubClient (urlParse : String → Except String Unit)
    (client : GitHubClient) : Except VcsError Unit :=
  if client.vcsInfo.ApiEndpoint ≠ "" then
    match urlParse (trimSuffix client.vcsInfo.ApiEndpoint "/" ++ "/") with
    | .error msg => .error (.urlParse msg)
    | .ok _ => .ok ()
  else .ok ()

/-- The GitLab adapter value. -/
structure GitLabClient where
  vcsInfo : VcsInfo
deriving DecidableEq, Repr

/-- `NewGitLabClient` (src/vcsclient/gitlab.go:17-32): constructs the
external gitlab client, which parses the configured base URL at build
time (modelled as the same URL-parser oracle); a parse failure fails
construction. -/
def NewGitLabClient (urlParse : String → Except String Unit)
    (vcsInfo : VcsInfo) : Except VcsError GitLabClient :=
  if vcsInfo.ApiEndpoint ≠ "" then
    match urlParse vcsInfo.ApiEndpoint with
    | .error msg => .error (.urlParse msg)
    | .ok _ => .ok { vcsInfo := vcsInfo }
  else .ok { vcsInfo := vcsInfo }

end Froggit

namespace Froggit

/-- The validation helper reports no error exactly when every required
parameter is non-blank. -/
theorem validateParametersNotBlank_eq_none_iff (params : List (String × String)) :
    validateParametersNotBlank params = none ↔ ∀ p ∈ params, isBlank p.2 = false := by
  simp [validateParametersNotBlank, List.isEmpty_iff, List.map_eq_nil_iff,
    List.filter_eq_nil_iff]

/-- The validation helper returns either no error or a validation error. -/
theorem validateParametersNotBlank_shape (params : List (String × String)) :
    validateParametersNotBlank params = none ∨
    ∃ msgs, validateParametersNotBlank params = some (.validation msgs) := by
  simp only [validateParametersNotBlank]
  split
  · exact .inl rfl
  · exact .inr ⟨_, rfl⟩

/-- A blank member forces the validation helper to report a validation
error. -/
theorem validateParametersNotBlank_mem_blank (params : List (String × String))
    (p : String × String) (hp : p ∈ params) (hb : isBlank p.2 = true) :
    ∃ msgs, validateParametersNotBlank params = some (.validation msgs) := by
  rcases validateParametersNotBlank_shape params with h | h
  · have := (validateParametersNotBlank_eq_none_iff params).mp h p hp
    rw [hb] at this
    cases this
  · exact h

/-- C5: AddSshKeyToRepository with any blank required argument returns a
validation error and performs zero platform calls; with all four
arguments non-blank it registers the deploy key (title = keyName, key =
publicKey) exactly once, read-only precisely when the permission is not
ReadWrite. -/
theorem add_ssh_key_validation_and_readonly
    (server : String → String → DeployKey → Except VcsError Unit)
    (owner repository keyName publicKey : String) (permission : Permission) :
    ((isBlank owner = true ∨ isBlank repository = true ∨
        isBlank keyName = true ∨ isBlank publicKey = true) →
      isValidationErr (AddSshKeyToRepository server owner repository keyName
        publicKey permission).1 = true ∧
      (AddSshKeyToRepository server owner repository keyName publicKey
        permission).2 = []) ∧
    (isBlank owner = false → isBlank repository = false →
      isBlank keyName = false → isBlank publicKey = false →
      ∃ key : DeployKey,
        (AddSshKeyToRepository server owner repository keyName publicKey
          permission).2 = [(owner, repository, key)] ∧
        key.Key = publicKey ∧ key.Title = keyName ∧
        (key.ReadOnly = true ↔ permission ≠ ReadWrite)) := by
  constructor
  · intro hblank
    have hmem : ∃ p ∈ [("owner", owner), ("repository", repository),
        ("key name", keyName), ("public key", publicKey)], isBlank p.2 = true := by
      rcases hblank with h | h | h | h
      · exact ⟨("owner", owner), by simp, h⟩
      · exact ⟨("repository", repository), by simp, h⟩
      · exact ⟨("key name", keyName), by simp, h⟩
      · exact ⟨("public key", publicKey), by simp, h⟩
    obtain ⟨p, hp, hb⟩ := hmem
    obtain ⟨msgs, hv⟩ := validateParametersNotBlank_mem_blank _ p hp hb
    simp [AddSshKeyToRepository, hv, isValidationErr]
  · intro h1 h2 h3 h4
    have hv : validateParametersNotBlank [("owner", owner),
        ("repository", repository), ("key name", keyName),
        ("public key", publicKey)] = none := by
      rw [validateParametersNotBlank_eq_none_iff]
      intro p hp
      simp only [List.mem_cons, List.not_mem_nil, or_false] at hp
      rcases hp with rfl | rfl | rfl | rfl <;> assumption
    refine ⟨DeployKey.mk publicKey keyName
      (if permission = ReadWrite then false else true), ?_, rfl, rfl, ?_⟩
    · simp only [AddSshKeyToRepository, hv]
      cases hs : server owner repository (DeployKey.mk publicKey keyName
        (if permission = ReadWrite then false else true)) <;> simp [hs]
    · by_cases hperm : permission = ReadWrite <;> simp [hperm]

/-- Concrete instantiation: a blank owner aborts with a validation error
and no platform call; non-blank arguments with ReadWrite permission
register a non-read-only key. -/
theorem add_ssh_key_validation_and_readonly_witness :
    (isValidationErr (AddSshKeyToRepository (fun _ _ _ => .ok ()) "" "r" "k" "p"
        ReadOnly).1 = true ∧
      (AddSshKeyToRepository (fun _ _ _ => .ok ()) "" "r" "k" "p" ReadOnly).2 = []) ∧
    (∃ key : DeployKey,
      (AddSshKeyToRepository (fun _ _ _ => .ok ()) "o" "r" "k" "p" ReadWrite).2
        = [("o", "r", key)] ∧
      key.Key = "p" ∧ key.Title = "k" ∧
      (key.ReadOnly = true ↔ (ReadWrite : Permission) ≠ ReadWrite)) := by
  constructor
  · exact (add_ssh_key_validation_and_readonly (fun _ _ _ => .ok ()) "" "r" "k" "p"
      ReadOnly).1 (.inl (by decide))
  · exact (add_ssh_key_validation_and_readonly (fun _ _ _ => .ok ()) "o" "r" "k" "p"
      ReadWrite).2 (by decide) (by decide) (by decide) (by decide)

/-- C6: with non-blank arguments, GetLatestCommit returns the zero-valued
CommitInfo and no error when the platform reports zero commits, and the
first commit of the response, normalized, when there is at least one. -/
theorem get_latest_commit_zero_and_first
    (server : String → String → String → Except VcsError (List RepositoryCommit))
    (owner repository branch : String)
    (ho : isBlank owner = false) (hr : isBlank repository = false)
    (hb : isBlank branch = false) :
    (server owner repository branch = .ok [] →
      GetLatestCommit server owner repository branch = (.ok emptyCommitInfo, 1)) ∧
    (∀ c rest, server owner repository branch = .ok (c :: rest) →
      GetLatestCommit server owner repository branch
        = (.ok (mapGitHubCommitToCommitInfo c), 1)) := by
  have hv : validateParametersNotBlank [("owner", owner),
      ("repository", repository), ("branch", branch)] = none := by
    rw [validateParametersNotBlank_eq_none_iff]
    intro p hp
    simp only [List.mem_cons, List.not_mem_nil, or_false] at hp
    rcases hp with rfl | rfl | rfl <;> assumption
  constructor
  · intro h
    simp [GetLatestCommit, hv, h]
  · intro c rest h
    simp [GetLatestCommit, hv, h]

/-- Concrete instantiation: an empty commit list yields the zero
CommitInfo with a nil error; a one-commit list yields that commit
normalized. -/
theorem get_latest_commit_zero_and_first_witness :
    GetLatestCommit (fun _ _ _ => .ok []) "o" "r" "b"
      = (.ok emptyCommitInfo, 1) ∧
    GetLatestCommit (fun _ _ _ => .ok [RepositoryCommit.mk "s" "u"
        (CommitDetails.mk (CommitDetailsPerson.mk "a" 5)
          (CommitDetailsPerson.mk "c" 7) "m") ["p1"]]) "o" "r" "b"
      = (.ok (CommitInfo.mk "s" "a" "c" "u" 7 "m" ["p1"]), 1) := by
  constructor
  · exact (get_latest_commit_zero_and_first (fun _ _ _ => .ok []) "o" "r" "b"
      (by decide) (by decide) (by decide)).1 rfl
  · exact (get_latest_commit_zero_and_first (fun _ _ _ => .ok
      [RepositoryCommit.mk "s" "u" (CommitDetails.mk
        (CommitDetailsPerson.mk "a" 5) (CommitDetailsPerson.mk "c" 7) "m")
        ["p1"]]) "o" "r" "b"
      (by decide) (by decide) (by decide)).2 _ [] rfl

/-- C3 fails on the code: ListBranches (both adapters) and GitLab's
CreateWebhook, called with blank owner and repository, still perform
their platform call and return its answer — no validation error, no
local rejection. -/
theorem blank_args_reach_network_counterexample :
    (ListBranchesGH (fun _ _ => .ok []) "" "").2 = 1 ∧
    isValidationErr (ListBranchesGH (fun _ _ => .ok []) "" "").1 = false ∧
    (ListBranchesGL (fun _ => .ok []) "" "").2 = [getProjectId "" ""] ∧
    isValidationErr (ListBranchesGL (fun _ => .ok []) "" "").1 = false ∧
    (CreateWebhookGL (fun _ _ => .ok 1) "t" "" "" "b" "u" []).2.length = 1 ∧
    isValidationErr (CreateWebhookGL (fun _ _ => .ok 1) "t" "" "" "b" "u" []).1
      = false :=
  ⟨rfl, rfl, rfl, rfl, rfl, rfl⟩

/-- C3 amended: blank-argument validation before the network holds only
for the operations that call the validation helper (AddSshKeyToRepository
and GetLatestCommit among the cited ones); ListBranches on both adapters
and GitLab's CreateWebhook make their platform call unconditionally, even
with a blank owner. -/
theorem validation_covers_only_some_operations
    (sk : String → String → DeployKey → Except VcsError Unit)
    (sc : String → String → String → Except VcsError (List RepositoryCommit))
    (sb : String → String → Except VcsError (List Branch))
    (slb : String → Except VcsError (List Branch))
    (scw : String → ProjectHookOptions → Except VcsError Int)
    (owner repository keyName publicKey branch payloadUrl token : String)
    (permission : Permission) (events : List WebhookEvent)
    (hblank : isBlank owner = true) :
    isValidationErr (AddSshKeyToRepository sk owner repository keyName
      publicKey permission).1 = true ∧
    (AddSshKeyToRepository sk owner repository keyName publicKey permission).2
      = [] ∧
    isValidationErr (GetLatestCommit sc owner repository branch).1 = true ∧
    (GetLatestCommit sc owner repository branch).2 = 0 ∧
    (ListBranchesGH sb owner repository).2 = 1 ∧
    (ListBranchesGL slb owner repository).2 = [getProjectId owner repository] ∧
    (CreateWebhookGL scw token owner repository branch payloadUrl events).2.length
      = 1 := by
  obtain ⟨msgs1, hv1⟩ := validateParametersNotBlank_mem_blank
    [("owner", owner), ("repository", repository), ("key name", keyName),
      ("public key", publicKey)] ("owner", owner) (by simp) hblank
  obtain ⟨msgs2, hv2⟩ := validateParametersNotBlank_mem_blank
    [("owner", owner), ("repository", repository), ("branch", branch)]
    ("owner", owner) (by simp) hblank
  refine ⟨?_, ?_, ?_, ?_, ?_, ?_, ?_⟩
  · simp [AddSshKeyToRepository, hv1, isValidationErr]
  · simp [AddSshKeyToRepository, hv1]
  · simp [GetLatestCommit, hv2, isValidationErr]
  · simp [GetLatestCommit, hv2]
  · cases hs : sb owner repository <;> simp [ListBranchesGH, hs]
  · cases hs : slb (getProjectId owner repository) <;> simp [ListBranchesGL, hs]
  · cases hs : scw (getProjectId owner repository) (projectHookOptions token
      (createProjectHook branch payloadUrl events)) <;>
      simp [CreateWebhookGL, hs]

/-- Concrete instantiation with a blank owner: AddSshKeyToRepository and
GetLatestCommit reject locally with zero platform calls, while the
unvalidated operations each make their platform call. -/
theorem validation_covers_only_some_operations_witness :
    isValidationErr (AddSshKeyToRepository (fun _ _ _ => .ok ()) "" "r" "k" "p"
      ReadOnly).1 = true ∧
    (AddSshKeyToRepository (fun _ _ _ => .ok ()) "" "r" "k" "p" ReadOnly).2
      = [] ∧
    isValidationErr (GetLatestCommit (fun _ _ _ => .ok []) "" "r" "b").1
      = true ∧
    (GetLatestCommit (fun _ _ _ => .ok []) "" "r" "b").2 = 0 ∧
    (ListBranchesGH (fun _ _ => .ok []) "" "r").2 = 1 ∧
    (ListBranchesGL (fun _ => .ok []) "" "r").2 = [getProjectId "" "r"] ∧
    (CreateWebhookGL (fun _ _ => .ok 1) "t" "" "r" "b" "u" []).2.length = 1 :=
  validation_covers_only_some_operations (fun _ _ _ => .ok ())
    (fun _ _ _ => .ok []) (fun _ _ => .ok []) (fun _ => .ok [])
    (fun _ _ => .ok 1) "" "r" "k" "p" "b" "u" "t" ReadOnly [] (by decide)

/-- C8 fails on the code for the GitHub adapter: construction succeeds for
a configuration whose endpoint the URL parser rejects, and the parse
error first surfaces when an operation builds the inner client. -/
theorem construction_url_error_counterexample :
    NewGitHubClient (VcsInfo.mk "http://bad%escape" "" "")
      = .ok (GitHubClient.mk (VcsInfo.mk "http://bad%escape" "" "")) ∧
    buildGithubClient (fun _ => .error "invalid URL escape")
      (GitHubClient.mk (VcsInfo.mk "http://bad%escape" "" ""))
      = .error (.urlParse "invalid URL escape") := by
  refine ⟨rfl, ?_⟩
  unfold buildGithubClient
  rw [if_pos (by decide)]

/-- C8 amended: the GitLab adapter parses the configured endpoint URL at
construction and fails there on a malformed one; the GitHub adapter's
construction never fails, and a malformed endpoint instead errors when an
operation builds the inner client. -/
theorem construction_vs_operation_url_error
    (urlParse : String → Except String Unit) (v : VcsInfo) (msg : String) :
    NewGitHubClient v = .ok (GitHubClient.mk v) ∧
    (v.ApiEndpoint ≠ "" → urlParse (trimSuffix v.ApiEndpoint "/" ++ "/")
        = .error msg →
      buildGithubClient urlParse (GitHubClient.mk v)
        = .error (.urlParse msg)) ∧
    (v.ApiEndpoint ≠ "" → urlParse v.ApiEndpoint = .error msg →
      NewGitLabClient urlParse v = .error (.urlParse msg)) ∧
    (v.ApiEndpoint ≠ "" → urlParse v.ApiEndpoint = .ok () →
      NewGitLabClient urlParse v = .ok (GitLabClient.mk v)) := by
  refine ⟨rfl, ?_, ?_, ?_⟩
  · intro h hp
    simp [buildGithubClient, h, hp]
  · intro h hp
    simp [NewGitLabClient, h, hp]
  · intro h hp
    simp [NewGitLabClient, h, hp]

/-- Concrete instantiation: with a parser that rejects the endpoint "x",
GitHub construction still succeeds, the GitHub operation-time build
fails, and GitLab construction fails. -/
theorem construction_vs_operation_url_error_witness :
    NewGitHubClient (VcsInfo.mk "x" "" "")
      = .ok (GitHubClient.mk (VcsInfo.mk "x" "" "")) ∧
    buildGithubClient (fun _ => .error "bad")
      (GitHubClient.mk (VcsInfo.mk "x" "" "")) = .error (.urlParse "bad") ∧
    NewGitLabClient (fun _ => .error "bad") (VcsInfo.mk "x" "" "")
      = .error (.urlParse "bad") := by
  refine ⟨?_, ?_, ?_⟩
  · exact (construction_vs_operation_url_error (fun _ => .error "bad")
      (VcsInfo.mk "x" "" "") "bad").1
  · exact (construction_vs_operation_url_error (fun _ => .error "bad")
      (VcsInfo.mk "x" "" "") "bad").2.1 (by decide) rfl
  · exact (construction_vs_operation_url_error (fun _ => .error "bad")
      (VcsInfo.mk "x" "" "") "bad").2.2.1 (by decide) rfl

/-- Folding two page batches in sequence equals folding their
concatenation (GitHub entry shape). -/
theorem applyPageGH_append (acc : List (String × List String))
    (a b : List (String × String)) :
    applyPageGH acc (a ++ b) = applyPageGH (applyPageGH acc a) b := by
  simp [applyPageGH, List.foldl_append]

/-- Folding two page batches in sequence equals folding their
concatenation (GitLab entry shape). -/
theorem applyPageGL_append (g : String) (acc : List (String × List String))
    (a b : List String) :
    applyPageGL g acc (a ++ b) = applyPageGL g (applyPageGL g acc a) b := by
  simp [applyPageGL, List.foldl_append]

/-- Run of the GitHub pagination loop over a server that serves N pages,
each response carrying LastPage = N: starting at page p < N it makes
N - p further requests and folds pages p..N-1 in order. -/
theorem listReposLoopGH_run_ok
    (server : Nat → Except VcsError (List (String × String) × Nat))
    (f : Nat → List (String × String)) (N : Nat)
    (hserv : ∀ i, i < N → server i = .ok (f i, N)) :
    ∀ fuel p acc c, p < N → N ≤ p + fuel →
      listReposLoopGH server fuel p acc c
        = some (.ok (applyPageGH acc (pagesConcat f p (N - p))), c + (N - p)) := by
  intro fuel
  induction fuel with
  | zero =>
    intro p acc c hp hf
    omega
  | succ fuel ih =>
    intro p acc c hp hf
    have hs := hserv p hp
    simp only [listReposLoopGH, hs]
    by_cases hstop : N ≤ p + 1
    · rw [if_pos hstop]
      have hNp : N - p = 1 := by omega
      rw [hNp]
      simp [pagesConcat]
    · rw [if_neg hstop]
      rw [ih (p + 1) (applyPageGH acc (f p)) (c + 1) (by omega) (by omega)]
      have h1 : N - p = (N - (p + 1)) + 1 := by omega
      rw [h1, pagesConcat, applyPageGH_append]
      have h2 : c + 1 + (N - (p + 1)) = c + ((N - (p + 1)) + 1) := by omega
      rw [h2]

/-- Run of the GitHub pagination loop against a server whose page k fails
after k good pages: the loop aborts at page k with that error, having made
k - p + 1 requests from page p. -/
theorem listReposLoopGH_run_error
    (server : Nat → Except VcsError (List (String × String) × Nat))
    (f : Nat → List (String × String)) (N k : Nat) (e : VcsError)
    (hserv : ∀ i, i < k → server i = .ok (f i, N)) (hk : k < N)
    (he : server k = .error e) :
    ∀ fuel p acc c, p ≤ k → k < p + fuel →
      listReposLoopGH server fuel p acc c = some (.error e, c + (k - p) + 1) := by
  intro fuel
  induction fuel with
  | zero =>
    intro p acc c hp hf
    omega
  | succ fuel ih =>
    intro p acc c hp hf
    by_cases hpk : p = k
    · subst hpk
      simp only [listReposLoopGH, he]
      have : p - p = 0 := by omega
      rw [this]
    · have hplt : p < k := by omega
      have hs := hserv p hplt
      simp only [listReposLoopGH, hs]
      rw [if_neg (by omega : ¬ N ≤ p + 1)]
      rw [ih (p + 1) (applyPageGH acc (f p)) (c + 1) (by omega) (by omega)]
      have h2 : c + 1 + (k - (p + 1)) = c + (k - p) := by omega
      rw [h2]

/-- Run of a GitLab group's pagination loop over a server that serves M
pages (numbered from 1), each response carrying TotalPages = M: starting
at page p with 1 ≤ p ≤ M it makes M - p + 1 further requests and folds
pages p..M in order. -/
theorem listGroupLoopGL_run_ok
    (server : String → Nat → Except VcsError (List String × Nat))
    (g : String) (f : Nat → List String) (M : Nat)
    (hserv : ∀ i, 1 ≤ i → i ≤ M → server g i = .ok (f i, M)) :
    ∀ fuel p acc c, 1 ≤ p → p ≤ M → M < p + fuel →
      listGroupProjectsLoopGL server g fuel p acc c
        = some (.ok (applyPageGL g acc (pagesConcat f p (M - p + 1))),
            c + (M - p + 1)) := by
  intro fuel
  induction fuel with
  | zero =>
    intro p acc c hp1 hpM hf
    omega
  | succ fuel ih =>
    intro p acc c hp1 hpM hf
    have hs := hserv p hp1 hpM
    simp only [listGroupProjectsLoopGL, hs]
    by_cases hstop : M ≤ p
    · rw [if_pos hstop]
      have hMp : M - p + 1 = 1 := by omega
      rw [hMp]
      simp [pagesConcat]
    · rw [if_neg hstop]
      rw [ih (p + 1) (applyPageGL g acc (f p)) (c + 1) (by omega) (by omega)
        (by omega)]
      have h1 : M - p + 1 = (M - (p + 1) + 1) + 1 := by omega
      conv_rhs => rw [h1, pagesConcat, applyPageGL_append]
      have h2 : c + 1 + (M - (p + 1) + 1) = c + ((M - (p + 1) + 1) + 1) := by
        omega
      rw [h2]

/-- Run of a GitLab group's pagination loop against a server whose page l
fails after pages 1..l-1 succeed with TotalPages = M ≥ l: the loop aborts
at page l with that error. -/
theorem listGroupLoopGL_run_error
    (server : String → Nat → Except VcsError (List String × Nat))
    (g : String) (f : Nat → List String) (M l : Nat) (e : VcsError)
    (hserv : ∀ i, 1 ≤ i → i < l → server g i = .ok (f i, M))
    (hl : 1 ≤ l) (hlM : l ≤ M) (he : server g l = .error e) :
    ∀ fuel p acc c, 1 ≤ p → p ≤ l → l < p + fuel →
      listGroupProjectsLoopGL server g fuel p acc c
        = some (.error e, c + (l - p) + 1) := by
  intro fuel
  induction fuel with
  | zero =>
    intro p acc c hp1 hpl hf
    omega
  | succ fuel ih =>
    intro p acc c hp1 hpl hf
    by_cases hpk : p = l
    · subst hpk
      simp only [listGroupProjectsLoopGL, he]
      have : p - p = 0 := by omega
      rw [this]
    · have hplt : p < l := by omega
      have hs := hserv p hp1 hplt
      simp only [listGroupProjectsLoopGL, hs]
      rw [if_neg (by omega : ¬ M ≤ p)]
      rw [ih (p + 1) (applyPageGL g acc (f p)) (c + 1) (by omega) (by omega)
        (by omega)]
      have h2 : c + 1 + (l - (p + 1)) = c + (l - p) := by omega
      rw [h2]

/-- A GitLab group's loop under a constant TotalPages indicator L makes
exactly max 1 L requests (one even when L = 0). -/
theorem listGroupLoopGL_const
    (server : String → Nat → Except VcsError (List String × Nat))
    (g : String) (f : Nat → List String) (L : Nat)
    (hserv : ∀ i, server g i = .ok (f i, L)) :
    ∀ fuel acc c, max 1 L ≤ fuel →
      listGroupProjectsLoopGL server g fuel 1 acc c
        = some (.ok (applyPageGL g acc (pagesConcat f 1 (max 1 L))),
            c + max 1 L) := by
  intro fuel acc c hf
  rcases Nat.eq_zero_or_pos L with hL | hL
  · subst hL
    obtain ⟨fuel2, rfl⟩ : ∃ fuel2, fuel = fuel2 + 1 := ⟨fuel - 1, by omega⟩
    simp only [listGroupProjectsLoopGL, hserv 1]
    rw [if_pos (by omega : (0 : Nat) ≤ 1)]
    simp [pagesConcat]
  · have hmax : max 1 L = L := by omega
    rw [hmax]
    have := listGroupLoopGL_run_ok server g f L (fun i _ _ => hserv i) fuel 1
      acc c (by omega) hL (by omega)
    rw [this]
    have h1 : L - 1 + 1 = L := by omega
    rw [h1]

/-- GitHub's ListRepositories under a constant LastPage indicator L makes
exactly max 1 L requests (one even when L = 0, i.e. no pagination
indicator). -/
theorem listReposGH_const
    (server : Nat → Except VcsError (List (String × String) × Nat))
    (f : Nat → List (String × String)) (L : Nat)
    (hserv : ∀ i, server i = .ok (f i, L)) :
    ∀ fuel, max 1 L ≤ fuel →
      ListRepositoriesGH server fuel
        = some (.ok (applyPageGH [] (pagesConcat f 0 (max 1 L))), max 1 L) := by
  intro fuel hf
  rcases Nat.eq_zero_or_pos L with hL | hL
  · subst hL
    obtain ⟨fuel2, rfl⟩ : ∃ fuel2, fuel = fuel2 + 1 := ⟨fuel - 1, by omega⟩
    simp only [ListRepositoriesGH, listReposLoopGH, hserv 0]
    rw [if_pos (by omega : (0 : Nat) ≤ 0 + 1)]
    simp [pagesConcat]
  · have hmax : max 1 L = L := by omega
    rw [hmax]
    have := listReposLoopGH_run_ok server f L (fun i _ => hserv i) fuel 0 [] 0
      hL (by omega)
    simp only [ListRepositoriesGH]
    rw [this]
    have h1 : L - 0 = L := by omega
    rw [h1]
    have h2 : 0 + L = L := by omega
    rw [h2]

/-- The outer group fold under a constant TotalPages indicator L: every
listed group contributes exactly max 1 L page requests, and the results
aggregate group by group. -/
theorem listReposGroupsGL_const
    (server : String → Nat → Except VcsError (List String × Nat))
    (f : String → Nat → List String) (L : Nat)
    (hserv : ∀ g i, server g i = .ok (f g i, L)) :
    ∀ gs fuel acc c, max 1 L ≤ fuel →
      listReposGroupsGL server fuel gs acc c
        = some (.ok (aggGroupsGL f L gs acc), c + gs.length * max 1 L) := by
  intro gs
  induction gs with
  | nil =>
    intro fuel acc c hf
    simp [listReposGroupsGL, aggGroupsGL]
  | cons g rest ih =>
    intro fuel acc c hf
    simp only [listReposGroupsGL]
    rw [listGroupLoopGL_const server g (f g) L (hserv g) fuel acc c hf]
    show listReposGroupsGL server fuel rest
      (applyPageGL g acc (pagesConcat (f g) 1 (max 1 L))) (c + max 1 L) = _
    rw [ih fuel (applyPageGL g acc (pagesConcat (f g) 1 (max 1 L)))
      (c + max 1 L) hf]
    simp only [aggGroupsGL, List.length_cons]
    rw [Nat.succ_mul]
    have h2 : c + max 1 L + rest.length * max 1 L
        = c + (rest.length * max 1 L + max 1 L) := by omega
    rw [h2]

/-- C2: when the platform serves N ≥ 1 pages (every response carrying the
indicator N), ListRepositories makes exactly N page requests and returns
the fold, in request order, of the concatenation of all pages — for the
GitHub loop (from page 0, stop at nextPage+1 ≥ LastPage) and the GitLab
loop (from page 1, stop at pageId ≥ TotalPages); and when some page k
fails, the whole call returns that error with no accumulated results. -/
theorem pagination_drains_pages_or_aborts
    (N M k l : Nat) (f : Nat → List (String × String)) (fG : Nat → List String)
    (g : String)
    (sGH sGH2 : Nat → Except VcsError (List (String × String) × Nat))
    (sGL sGL2 : String → Nat → Except VcsError (List String × Nat))
    (e e2 : VcsError)
    (hN : 1 ≤ N) (hGH : ∀ i, i < N → sGH i = .ok (f i, N))
    (hM : 1 ≤ M) (hGL : ∀ i, 1 ≤ i → i ≤ M → sGL g i = .ok (fG i, M))
    (hGH2 : ∀ i, i < k → sGH2 i = .ok (f i, N)) (hkN : k < N)
    (heGH : sGH2 k = .error e)
    (hGL2 : ∀ i, 1 ≤ i → i < l → sGL2 g i = .ok (fG i, M)) (hl : 1 ≤ l)
    (hlM : l ≤ M) (heGL : sGL2 g l = .error e2) :
    ListRepositoriesGH sGH N
      = some (.ok (applyPageGH [] (pagesConcat f 0 N)), N) ∧
    ListRepositoriesGL (.ok [g]) sGL M
      = some (.ok (applyPageGL g [] (pagesConcat fG 1 M)), M) ∧
    ListRepositoriesGH sGH2 (k + 1) = some (.error e, k + 1) ∧
    ListRepositoriesGL (.ok [g]) sGL2 l = some (.error e2, l) := by
  refine ⟨?_, ?_, ?_, ?_⟩
  · simp only [ListRepositoriesGH]
    rw [listReposLoopGH_run_ok sGH f N hGH N 0 [] 0 (by omega) (by omega)]
    have h1 : N - 0 = N := by omega
    have h2 : 0 + (N - 0) = N := by omega
    rw [h2, h1]
  · simp only [ListRepositoriesGL, listReposGroupsGL]
    rw [listGroupLoopGL_run_ok sGL g fG M hGL M 1 [] 0 (by omega) hM (by omega)]
    show listReposGroupsGL sGL M []
      (applyPageGL g [] (pagesConcat fG 1 (M - 1 + 1))) (0 + (M - 1 + 1)) = _
    have h1 : M - 1 + 1 = M := by omega
    rw [listReposGroupsGL, h1, Nat.zero_add]
  · simp only [ListRepositoriesGH]
    rw [listReposLoopGH_run_error sGH2 f N k e hGH2 hkN heGH (k + 1) 0 [] 0
      (by omega) (by omega)]
    have h1 : 0 + (k - 0) + 1 = k + 1 := by omega
    rw [h1]
  · simp only [ListRepositoriesGL, listReposGroupsGL]
    rw [listGroupLoopGL_run_error sGL2 g fG M l e2 hGL2 hl hlM heGL l 1 [] 0
      (by omega) (by omega) (by omega)]
    show some (Except.error e2, 0 + (l - 1) + 1)
      = (some (Except.error e2, l) :
          Option (Except VcsError (List (String × List String)) × Nat))
    have h1 : 0 + (l - 1) + 1 = l := by omega
    rw [h1]

/-- Concrete instantiation: two-page servers are drained in two requests
with both pages aggregated in order on each adapter, and an error on the
first page (GitHub) or page 1 (GitLab) aborts the call with that error. -/
theorem pagination_drains_pages_or_aborts_witness :
    ListRepositoriesGH (fun i => .ok ([("o", if i = 0 then "a" else "b")], 2)) 2
      = some (.ok (applyPageGH []
          (pagesConcat (fun i => [("o", if i = 0 then "a" else "b")]) 0 2)), 2) ∧
    ListRepositoriesGL (.ok ["g"]) (fun _ i => .ok ([if i = 1 then "x" else "y"], 2)) 2
      = some (.ok (applyPageGL "g" []
          (pagesConcat (fun i => [if i = 1 then "x" else "y"]) 1 2)), 2) ∧
    ListRepositoriesGH (fun _ => .error (.platform "boom")) 1
      = some (.error (.platform "boom"), 1) ∧
    ListRepositoriesGL (.ok ["g"]) (fun _ _ => .error (.platform "bam")) 1
      = some (.error (.platform "bam"), 1) :=
  pagination_drains_pages_or_aborts 2 2 0 1
    (fun i => [("o", if i = 0 then "a" else "b")])
    (fun i => [if i = 1 then "x" else "y"]) "g"
    (fun i => .ok ([("o", if i = 0 then "a" else "b")], 2))
    (fun _ => .error (.platform "boom"))
    (fun _ i => .ok ([if i = 1 then "x" else "y"], 2))
    (fun _ _ => .error (.platform "bam"))
    (.platform "boom") (.platform "bam")
    (by omega) (fun _ _ => rfl) (by omega) (fun _ _ _ => rfl)
    (fun i hi => absurd hi (by omega)) (by omega) rfl
    (fun i h1 h2 => absurd h1 (by omega)) (by omega) (by omega) rfl

/-- C10: under a constant pagination indicator L on every response, both
ListRepositories loops terminate; the GitHub loop makes exactly max 1 L
page requests, and the GitLab adapter makes exactly max 1 L page requests
per listed group — in particular one single request (per group) when
L = 0, i.e. when no pagination indicator is reported. -/
theorem pagination_terminates_const_indicator
    (L : Nat) (f : Nat → List (String × String))
    (fG : String → Nat → List String)
    (sGH : Nat → Except VcsError (List (String × String) × Nat))
    (sGL : String → Nat → Except VcsError (List String × Nat))
    (gs : List String)
    (hGH : ∀ i, sGH i = .ok (f i, L)) (hGL : ∀ g i, sGL g i = .ok (fG g i, L)) :
    (∀ fuel, max 1 L ≤ fuel →
      ListRepositoriesGH sGH fuel
        = some (.ok (applyPageGH [] (pagesConcat f 0 (max 1 L))), max 1 L)) ∧
    (∀ fuel, max 1 L ≤ fuel →
      ListRepositoriesGL (.ok gs) sGL fuel
        = some (.ok (aggGroupsGL fG L gs []), gs.length * max 1 L)) := by
  constructor
  · intro fuel hf
    exact listReposGH_const sGH f L hGH fuel hf
  · intro fuel hf
    simp only [ListRepositoriesGL]
    rw [listReposGroupsGL_const sGL fG L hGL gs fuel [] 0 hf]
    have h1 : 0 + gs.length * max 1 L = gs.length * max 1 L := by omega
    rw [h1]

/-- Concrete instantiation with L = 0 (no pagination indicator): one page
request on GitHub, and one page request per group (two groups, two
requests) on GitLab. -/
theorem pagination_terminates_const_indicator_witness :
    ListRepositoriesGH (fun _ => .ok ([("o", "a")], 0)) 1
      = some (.ok (applyPageGH []
          (pagesConcat (fun _ => [("o", "a")]) 0 1)), 1) ∧
    ListRepositoriesGL (.ok ["g", "h"]) (fun _ _ => .ok (["p"], 0)) 1
      = some (.ok (aggGroupsGL (fun _ _ => ["p"]) 0 ["g", "h"] []), 2) := by
  constructor
  · exact (pagination_terminates_const_indicator 0 (fun _ => [("o", "a")])
      (fun _ _ => ["p"]) (fun _ => .ok ([("o", "a")], 0))
      (fun _ _ => .ok (["p"], 0)) ["g", "h"]
      (fun _ => rfl) (fun _ _ => rfl)).1 1 (by omega)
  · exact (pagination_terminates_const_indicator 0 (fun _ => [("o", "a")])
      (fun _ _ => ["p"]) (fun _ => .ok ([("o", "a")], 0))
      (fun _ _ => .ok (["p"], 0)) ["g", "h"]
      (fun _ => rfl) (fun _ _ => rfl)).2 1 (by omega)

/-- C1: for the four recognized CommitStatus values the GitHub mapping
returns success/failure/error/pending and the GitLab mapping returns
success/failed/failed/running; none of these eight results is the unmapped
default (the empty string). -/
theorem commit_state_mappings_documented :
    getGitHubCommitState Pass = "success" ∧
    getGitHubCommitState Fail = "failure" ∧
    getGitHubCommitState Error = "error" ∧
    getGitHubCommitState InProgress = "pending" ∧
    getGitLabCommitState Pass = "success" ∧
    getGitLabCommitState Fail = "failed" ∧
    getGitLabCommitState Error = "failed" ∧
    getGitLabCommitState InProgress = "running" ∧
    getGitHubCommitState Pass ≠ "" ∧
    getGitHubCommitState Fail ≠ "" ∧
    getGitHubCommitState Error ≠ "" ∧
    getGitHubCommitState InProgress ≠ "" ∧
    getGitLabCommitState Pass ≠ "" ∧
    getGitLabCommitState Fail ≠ "" ∧
    getGitLabCommitState Error ≠ "" ∧
    getGitLabCommitState InProgress ≠ "" := by
  decide

/-- C4: both commit-state mappings are total over the (Go int-backed) enum
domain, yielding the empty string outside the four recognized values; an
unrecognized webhook event contributes no GitHub event name and leaves the
GitLab project hook unchanged. Nothing errors: the mappings are plain
total functions into strings / hook records. -/
theorem enum_mappings_total_with_empty_default
    (s : CommitStatus) (e : WebhookEvent) (evs : List WebhookEvent)
    (branch payloadUrl : String)
    (hs : s ≠ Pass ∧ s ≠ Fail ∧ s ≠ Error ∧ s ≠ InProgress)
    (he : e ≠ PrCreated ∧ e ≠ PrEdited ∧ e ≠ Push) :
    getGitHubCommitState s = "" ∧
    getGitLabCommitState s = "" ∧
    getGitHubWebhookEvents (e :: evs) = getGitHubWebhookEvents evs ∧
    createProjectHook branch payloadUrl (e :: evs) =
      createProjectHook branch payloadUrl evs := by
  obtain ⟨h1, h2, h3, h4⟩ := hs
  obtain ⟨g1, g2, g3⟩ := he
  refine ⟨?_, ?_, ?_, ?_⟩
  · simp [getGitHubCommitState, h1, h2, h3, h4]
  · simp [getGitLabCommitState, h1, h2, h3, h4]
  · simp [getGitHubWebhookEvents, g1, g2, g3]
  · simp [createProjectHook, List.foldl, g1, g2, g3]

/-- C7: on both adapters, UpdateWebhook and DeleteWebhook first run the
webhook ID through the platform's numeric parse (ParseInt / Atoi); an
unparseable ID yields an error with an empty platform trace, and a
parseable one leads to exactly one platform call carrying the parsed
identifier. -/
theorem webhook_id_parse_gates_platform_call
    (sU : String → String → Int → GitHubHook → Except VcsError Unit)
    (sD : String → String → Int → Except VcsError Unit)
    (sLU : String → Int → ProjectHookOptions → Except VcsError Unit)
    (sLD : String → Int → Except VcsError Unit)
    (owner repository branch payloadUrl token webhookId : String)
    (events : List WebhookEvent) :
    (goParseInt64 webhookId = none →
      UpdateWebhookGH sU owner repository branch payloadUrl token webhookId events
        = (.error (.parse webhookId), []) ∧
      DeleteWebhookGH sD owner repository webhookId
        = (.error (.parse webhookId), []) ∧
      UpdateWebhookGL sLU owner repository branch payloadUrl token webhookId events
        = (.error (.parse webhookId), []) ∧
      DeleteWebhookGL sLD owner repository webhookId
        = (.error (.parse webhookId), [])) ∧
    (∀ n, goParseInt64 webhookId = some n →
      (UpdateWebhookGH sU owner repository branch payloadUrl token webhookId events).2
        = [(owner, repository, n, createGitHubHook token payloadUrl events)] ∧
      (DeleteWebhookGH sD owner repository webhookId).2
        = [(owner, repository, n)] ∧
      (UpdateWebhookGL sLU owner repository branch payloadUrl token webhookId events).2
        = [(getProjectId owner repository, n,
            projectHookOptions token (createProjectHook branch payloadUrl events))] ∧
      (DeleteWebhookGL sLD owner repository webhookId).2
        = [(getProjectId owner repository, n)]) := by
  constructor
  · intro h
    refine ⟨?_, ?_, ?_, ?_⟩ <;>
      simp [UpdateWebhookGH, DeleteWebhookGH, UpdateWebhookGL, DeleteWebhookGL,
        goAtoi, h]
  · intro n h
    refine ⟨?_, ?_, ?_, ?_⟩
    · cases hs : sU owner repository n (createGitHubHook token payloadUrl events) <;>
        simp [UpdateWebhookGH, h, hs]
    · cases hs : sD owner repository n <;> simp [DeleteWebhookGH, h, hs]
    · cases hs : sLU (getProjectId owner repository) n
        (projectHookOptions token (createProjectHook branch payloadUrl events)) <;>
        simp [UpdateWebhookGL, goAtoi, h, hs]
    · cases hs : sLD (getProjectId owner repository) n <;>
        simp [DeleteWebhookGL, goAtoi, h, hs]

/-- Concrete instantiation: the non-numeric ID "12x" aborts UpdateWebhook
on GitHub before any platform call, and the numeric ID "123" reaches the
GitLab delete call as the integer 123. -/
theorem webhook_id_parse_gates_platform_call_witness :
    UpdateWebhookGH (fun _ _ _ _ => .ok ()) "o" "r" "b" "u" "t" "12x" []
      = (.error (.parse "12x"), []) ∧
    (DeleteWebhookGL (fun _ _ => .ok ()) "o" "r" "123").2 = [("o/r", 123)] := by
  constructor
  · exact (webhook_id_parse_gates_platform_call (fun _ _ _ _ => .ok ())
      (fun _ _ _ => .ok ()) (fun _ _ _ => .ok ()) (fun _ _ => .ok ())
      "o" "r" "b" "u" "t" "12x" [] |>.1 (by decide)).1
  · exact (webhook_id_parse_gates_platform_call (fun _ _ _ _ => .ok ())
      (fun _ _ _ => .ok ()) (fun _ _ _ => .ok ()) (fun _ _ => .ok ())
      "o" "r" "b" "u" "t" "123" [] |>.2 123 (by decide)).2.2.2

/-- C9: the GitHub adapter ignores the branch argument entirely when
building webhooks: for any two branch values, CreateWebhook and
UpdateWebhook behave identically (same result, same platform trace), and
the hook object sent is exactly the events list plus the url /
content_type=json / secret config, with no branch filter field. -/
theorem github_webhook_ignores_branch
    (sC : String → String → GitHubHook → Except VcsError Int)
    (sU : String → String → Int → GitHubHook → Except VcsError Unit)
    (token owner repository payloadUrl b1 b2 webhookId : String)
    (events : List WebhookEvent) :
    CreateWebhookGH sC token owner repository b1 payloadUrl events
      = CreateWebhookGH sC token owner repository b2 payloadUrl events ∧
    UpdateWebhookGH sU owner repository b1 payloadUrl token webhookId events
      = UpdateWebhookGH sU owner repository b2 payloadUrl token webhookId events ∧
    (CreateWebhookGH sC token owner repository b1 payloadUrl events).2
      = [(owner, repository,
          { Events := getGitHubWebhookEvents events,
            Config := [("url", payloadUrl), ("content_type", "json"),
              ("secret", token)] })] := by
  refine ⟨rfl, rfl, ?_⟩
  cases hs : sC owner repository (createGitHubHook token payloadUrl events) <;>
    simp [CreateWebhookGH, hs] <;> rfl

/-- Concrete instantiation of the totality theorem at the out-of-range
enum values 7 and 9. -/
theorem enum_mappings_total_with_empty_default_witness :
    getGitHubCommitState 7 = "" ∧
    getGitLabCommitState 7 = "" ∧
    getGitHubWebhookEvents (9 :: [Push]) = getGitHubWebhookEvents [Push] ∧
    createProjectHook "b" "u" (9 :: [Push]) = createProjectHook "b" "u" [Push] :=
  enum_mappings_total_with_empty_default 7 9 [Push] "b" "u"
    (by refine ⟨?_, ?_, ?_, ?_⟩ <;> decide)
    (by refine ⟨?_, ?_, ?_⟩ <;> decide)

end Froggit
